import Mathlib

/-!
Verification development for the Mini OS File Manager backend
(`server.js`): a shallow embedding of its path sanitisation,
HTTP read/save handlers, and root-directory resolution, together
with theorems settling the specification's claims.

The server runs on a POSIX platform (its root selection uses
`process.getuid` and `os.homedir`), so the path model follows
Node's `path.posix` semantics: `/` is the only separator and `\`
is an ordinary file-name character.
-/

namespace MiniOS

/-- Split a character list on a separator character, JS
`String.prototype.split`-style: adjacent separators yield empty
segments. -/
def splitCharAux (sep : Char) : List Char → List Char → List String
  | [], cur => [String.mk cur.reverse]
  | c :: cs, cur =>
    if c = sep then String.mk cur.reverse :: splitCharAux sep cs []
    else splitCharAux sep cs (c :: cur)

/-- Split a string on a separator character. -/
def splitChar (sep : Char) (s : String) : List String :=
  splitCharAux sep s.toList []

/-- JS `String.prototype.startsWith`: is the second string a prefix of
the first. -/
def strStartsWith (s lead : String) : Bool :=
  lead.toList.isPrefixOf s.toList

/-- Whether the string ends in a `/` (Node records a trailing
separator before normalising and restores it afterwards). -/
def trailSlash (s : String) : Bool :=
  match s.toList.getLast? with
  | some c => c = '/'
  | none => false

/-- One step of Node's `normalizeString`: fold a path segment into the
(reversed) accumulator, resolving `.` and `..`.  `allow` is Node's
`allowAboveRoot`: when true (relative input), unresolvable `..`
segments are kept; when false (absolute input), they are dropped at
the root. -/
def normStep (allow : Bool) (acc : List String) (seg : String) : List String :=
  if seg = "" || seg = "." then acc
  else if seg = ".." then
    match acc with
    | [] => if allow then [".."] else []
    | s :: rest => if s = ".." then (if allow then ".." :: acc else acc) else rest
  else seg :: acc

/-- Node's `normalizeString(path, allowAboveRoot, '/')`, returning the
list of remaining segments in order. -/
def normSegs (allow : Bool) (s : String) : List String :=
  ((splitChar '/' s).foldl (normStep allow) []).reverse

/-- Node `path.posix.normalize`. -/
def posixNormalize (p : String) : String :=
  if p = "" then "."
  else
    let isAbs := strStartsWith p "/"
    let trail := trailSlash p
    let body := String.intercalate "/" (normSegs (!isAbs) p)
    if body = "" then
      if isAbs then "/" else if trail then "./" else "."
    else
      let body := if trail then body ++ "/" else body
      if isAbs then "/" ++ body else body

/-- Node `path.posix.resolve(...args)` with the process working
directory `cwd` (an absolute path) made an explicit parameter.
Arguments are scanned right to left until an absolute one is found;
`cwd` is prepended if none is. -/
def nodeResolve (cwd : String) (args : List String) : String :=
  let pre := args.reverse.foldl
    (fun (acc : String × Bool) p =>
      if acc.2 then acc
      else if p = "" then acc
      else (p ++ "/" ++ acc.1, strStartsWith p "/"))
    ("", false)
  let joined := if pre.2 then pre.1 else cwd ++ "/" ++ pre.1
  let segs := normSegs false joined
  if segs.isEmpty then "/" else "/" ++ String.intercalate "/" segs

/-- The regex strip `.replace(/^([/\\])+/, '')` from `resolveSafePath`:
drop every leading `/` or `\` character. -/
def stripLeadSeps (s : String) : String :=
  String.mk (s.toList.dropWhile (fun c => c = '/' || c = '\\'))

/-- `resolveSafePath(baseDir, requestedPath)` from `server.js`:

    const safeBase = path.resolve(baseDir);
    const sanitized = path.normalize(requestedPath).replace(/^([/\\])+/, '');
    const safePath = path.resolve(safeBase, sanitized);
    return { safeBase, safePath };

`cwd` stands for `process.cwd()`, which Node's `path.resolve` consults
when its arguments are relative. -/
def resolveSafePath (cwd baseDir requestedPath : String) : String × String :=
  let safeBase := nodeResolve cwd [baseDir]
  let sanitized := stripLeadSeps (posixNormalize requestedPath)
  let safePath := nodeResolve cwd [safeBase, sanitized]
  (safeBase, safePath)

/-- The region the specification requires accepted paths to lie in:
equal to the base directory, or strictly nested under it. -/
def insideRoot (base p : String) : Bool :=
  p == base || strStartsWith p (base ++ "/")

/-- A filesystem snapshot for the read/save endpoints: the text
content stored at each absolute path, `none` when no file is there
(so `fs.readFile` fails with `ENOENT`). -/
def Fs : Type := String → Option String

/-- An HTTP response: status code and body.  (`/api/save` sends the
JSON object `{ message: 'File saved successfully' }`; the model keeps
the message string.) -/
structure HttpResponse where
  status : Nat
  body : String
deriving DecidableEq, Repr

/-- What the `/api/read` handler decides to do with a request, before
any filesystem callback runs: reject with 400, reject with 403, or
call `fs.readFile` on the resolved path. -/
inductive ReadAction where
  | badRequest
  | forbidden
  | readFile (p : String)
deriving DecidableEq, Repr

/-- What the `/api/save` handler decides to do: reject with 400,
reject with 403, or call `fs.writeFile(p, data)` where `data` is the
body's `content` field (`none` when the field was absent, i.e.
`undefined` in JS). -/
inductive SaveAction where
  | badRequest
  | forbidden
  | writeFile (p : String) (data : Option String)
deriving DecidableEq, Repr

/-- The decision logic of `app.get('/api/read', ...)` in `server.js`:

    const filePath = req.query.path;
    if (typeof filePath !== 'string') return res.status(400)...;
    const { safeBase, safePath } = resolveSafePath(filesDir, filePath);
    if (!safePath.startsWith(safeBase)) return res.status(403)...;
    fs.readFile(safePath, ...)

`q` is the `path` query parameter (`none` when missing or not a
string). -/
def readHandlerAction (cwd filesDir : String) (q : Option String) : ReadAction :=
  match q with
  | none => ReadAction.badRequest
  | some filePath =>
    let r := resolveSafePath cwd filesDir filePath
    if strStartsWith r.2 r.1 then ReadAction.readFile r.2
    else ReadAction.forbidden

/-- The decision logic of `app.post('/api/save', ...)` in `server.js`:
destructures `{ path, content }` from the JSON body, rejects with 400
only when `path` is not a string, rejects with 403 when the prefix
check fails, and otherwise passes `content` (checked nowhere, so
possibly `undefined`) straight to `fs.writeFile`. -/
def saveHandlerAction (cwd filesDir : String) (pathField contentField : Option String) : SaveAction :=
  match pathField with
  | none => SaveAction.badRequest
  | some filePath =>
    let r := resolveSafePath cwd filesDir filePath
    if strStartsWith r.2 r.1 then SaveAction.writeFile r.2 contentField
    else SaveAction.forbidden

/-- `fs.writeFile(p, data, 'utf8', cb)`: with string data it stores the
content and calls back without error; with `undefined` data Node
raises a synchronous `ERR_INVALID_ARG_TYPE` (modelled as `none`). -/
def fsWriteFile (fsys : Fs) (p : String) (data : Option String) : Option Fs :=
  match data with
  | some c => some (fun q => if q = p then some c else fsys q)
  | none => none

/-- Full `/api/read` behaviour: the handler's decision interpreted
against a filesystem snapshot, giving the HTTP response. -/
def readResponse (cwd filesDir : String) (fsys : Fs) (q : Option String) : HttpResponse :=
  match readHandlerAction cwd filesDir q with
  | ReadAction.badRequest => ⟨400, "Bad Request: Missing path parameter"⟩
  | ReadAction.forbidden => ⟨403, "Forbidden: Access Denied"⟩
  | ReadAction.readFile p =>
    match fsys p with
    | some data => ⟨200, data⟩
    | none => ⟨500, "Error reading file"⟩

/-- Full `/api/save` behaviour: the HTTP response together with the
filesystem snapshot after the request.  A synchronous `writeFile`
type error (absent content) propagates to the framework's default
error handler, a 500. -/
def saveResponse (cwd filesDir : String) (fsys : Fs) (pathField contentField : Option String) :
    HttpResponse × Fs :=
  match saveHandlerAction cwd filesDir pathField contentField with
  | SaveAction.badRequest => (⟨400, "Bad Request: Missing path parameter"⟩, fsys)
  | SaveAction.forbidden => (⟨403, "Forbidden: Access Denied"⟩, fsys)
  | SaveAction.writeFile p d =>
    match fsWriteFile fsys p d with
    | some fs2 => (⟨200, "File saved successfully"⟩, fs2)
    | none => (⟨500, "Internal Server Error"⟩, fsys)

/-- A stand-in for `process.cwd()` in concrete evaluations. -/
def cwd0 : String := "/srv/app"

/-- The spec's concrete scenario filesystem: root `/tmp/root`
containing `docs/readme.txt` with content `"hello"`. -/
def scenarioFs : Fs :=
  fun p => if p = "/tmp/root/docs/readme.txt" then some "hello" else none


/-- The Node error codes `ensureDirectoryUsable` distinguishes. -/
inductive ErrCode where
  | EACCES
  | EPERM
  | ENOENT
  | other
deriving DecidableEq, Repr

/-- `err.code === 'EACCES' || err.code === 'EPERM'`. -/
def isPermErr : ErrCode → Bool
  | ErrCode.EACCES => true
  | ErrCode.EPERM => true
  | _ => false

/-- One entry of `fs.readdirSync(dir, { withFileTypes: true })`:
its name, whether `entry.isDirectory()`, and the outcome of
`fs.accessSync(path.join(dir, entry.name), R_OK)` (`none` = success). -/
structure FsEntry where
  name : String
  isDir : Bool
  accessErr : Option ErrCode
deriving DecidableEq, Repr

/-- What the filesystem answers when `ensureDirectoryUsable` probes a
candidate directory: the outcome of `fs.mkdirSync(dir, {recursive})`,
of `fs.accessSync(dir, R_OK | W_OK)` (`none` = success for both), and
of `fs.readdirSync`. -/
structure DirProbe where
  mkdirErr : Option ErrCode
  accessErr : Option ErrCode
  readdir : Except ErrCode (List FsEntry)

/-- The `{ ok, reason }` record returned by `ensureDirectoryUsable`
(the `error` field carries no logic and is omitted). -/
structure UsableResult where
  ok : Bool
  reason : Option String
deriving DecidableEq, Repr

/-- A directory entry on which the subdirectory loop of
`ensureDirectoryUsable` returns early: a directory child whose access
check fails with a permission error. -/
def entryBlocked (e : FsEntry) : Bool :=
  e.isDir && (match e.accessErr with
    | some c => isPermErr c
    | none => false)

/-- `ensureDirectoryUsable(dir)` from `server.js`: `mkdirSync` failure
gives `{ok:false, reason:'mkdir'}`; `accessSync` failure gives
`'access'`; then the entries loop returns `'subdir'` at the first
directory child with a permission error (other child errors are
swallowed by the inner catch); a `readdirSync` permission error gives
`'inspect'`, while a non-permission `readdirSync` error is swallowed
by the outer catch and the function falls through to `{ok:true}`. -/
def ensureDirectoryUsable (d : DirProbe) : UsableResult :=
  if d.mkdirErr.isSome then ⟨false, some "mkdir"⟩
  else if d.accessErr.isSome then ⟨false, some "access"⟩
  else
    match d.readdir with
    | Except.error e => if isPermErr e then ⟨false, some "inspect"⟩ else ⟨true, none⟩
    | Except.ok entries =>
      match entries.find? entryBlocked with
      | some _ => ⟨false, some "subdir"⟩
      | none => ⟨true, none⟩

/-- `path.join(__dirname, 'files')`, with the install location
modelled as the concrete directory `/srv/app`. -/
def defaultFilesDir : String := "/srv/app/files"

/-- The candidate list built by `resolveFilesDirectory`:

    const configuredDir = process.env.FLMNGR_ROOT_DIR
        ? path.resolve(process.env.FLMNGR_ROOT_DIR) : null;
    const candidates = [
        { dir: configuredDir, source: 'FLMNGR_ROOT_DIR' },
        { dir: DEFAULT_FILES_DIR, source: 'application default' }
    ].filter(candidate => !!candidate.dir);

An unset variable, and also the empty string (falsy in JS), yield no
override candidate. -/
def candidateDirs (cwd : String) (env : Option String) : List (String × String) :=
  (match env with
   | some p => if p = "" then [] else [(nodeResolve cwd [p], "FLMNGR_ROOT_DIR")]
   | none => []) ++ [(defaultFilesDir, "application default")]

/-- The fatal message thrown when no candidate is usable. -/
def flmngrFatalMsg : String :=
  "Unable to find an accessible directory for Flmngr storage. Set FLMNGR_ROOT_DIR to a readable and writable path."

/-- The `for (const candidate of candidates)` loop of
`resolveFilesDirectory`: return the first candidate whose probe says
ok, else throw.  `fsys` maps each directory to what probing it
observes. -/
def resolveFilesDirLoop (fsys : String → DirProbe) : List (String × String) → Except String String
  | [] => Except.error flmngrFatalMsg
  | c :: rest =>
    if (ensureDirectoryUsable (fsys c.1)).ok then Except.ok c.1
    else resolveFilesDirLoop fsys rest

/-- `resolveFilesDirectory()` from `server.js`. -/
def resolveFilesDirectory (cwd : String) (env : Option String) (fsys : String → DirProbe) :
    Except String String :=
  resolveFilesDirLoop fsys (candidateDirs cwd env)

/-- Outcome of the startup block of `server.js`: either the server
goes on to bind Flmngr and listen on the chosen root, or the thrown
error escapes (with `process.exitCode = 1`) and the process never
serves. -/
inductive Startup where
  | serving (root : String)
  | failed (msg : String)
deriving DecidableEq, Repr

/-- The `let filesDir; try { filesDir = resolveFilesDirectory(); }
catch ...` startup block. -/
def startup (cwd : String) (env : Option String) (fsys : String → DirProbe) : Startup :=
  match resolveFilesDirectory cwd env fsys with
  | Except.ok d => Startup.serving d
  | Except.error m => Startup.failed m

/-- A probe of a directory that is creatable, readable/writable and
empty — fully usable. -/
def usableProbe : DirProbe := ⟨none, none, Except.ok []⟩

/-- A probe of a directory that cannot even be created. -/
def unusableProbe : DirProbe := ⟨some ErrCode.EACCES, none, Except.ok []⟩

/-- A probe of a creatable, readable/writable candidate directory with
one child directory whose access check fails with `EACCES`. -/
def probeC3 : DirProbe := ⟨none, none, Except.ok [⟨"locked", true, some ErrCode.EACCES⟩]⟩

/-- The home directory of the C4 scenario. -/
def homeC4 : String := "/home/user"

/-- A filesystem in which only the user's home directory is usable. -/
def fsysC4 : String → DirProbe := fun d => if d = homeC4 then usableProbe else unusableProbe


/-- Follows the claim's words (spec §4.2, for comparison with
`candidateDirs`): an ordered list of an explicit override (if set),
then a privilege-appropriate default — the filesystem root when
running as superuser, otherwise the user's home directory — then the
bundled fallback directory. -/
def claimedCandidateDirs (override : Option String) (isRoot : Bool) (home : String) : List String :=
  (match override with
   | some p => [p]
   | none => []) ++ [if isRoot then "/" else home] ++ [defaultFilesDir]

/-- Modelled from the spec: the directory subtree visible to the tree
lister of §4.3, which is not part of `src/` (only the read/save
endpoints are).  Each node is a directory name with its immediate
subdirectories. -/
inductive DirTree where
  | node (name : String) (subdirs : List DirTree)

/-- Name of a directory node. -/
def DirTree.name : DirTree → String
  | DirTree.node n _ => n

/-- Immediate subdirectories of a directory node. -/
def DirTree.subdirs : DirTree → List DirTree
  | DirTree.node _ s => s

/-- Modelled from the spec: a Directory Node of the listing result
(§3), its display path kept as the list of path components. -/
structure DirNode where
  path : List String
  hasChildren : Bool
deriving DecidableEq, Repr

/-- Modelled from the spec: clamp the caller-supplied maximum depth to
the hard ceiling 20 and floor it at 0 (§4.3). -/
def clampDepth (d : Int) : Nat := (min (max d 0) 20).toNat

/-- Modelled from the spec: the subdirectories that survive the hide
filter; `hidden` is the compiled hide-pattern matcher consulted per
entry name (§4.3). -/
def visibleSubdirs (hidden : String → Bool) (t : DirTree) : List DirTree :=
  t.subdirs.filter (fun c => !hidden c.name)

/-- Modelled from the spec: the cheap existence check for
`hasChildren` — whether at least one unhidden child directory exists,
without expanding the child list (§4.3). -/
def hasVisibleChild (hidden : String → Bool) (t : DirTree) : Bool :=
  !(visibleSubdirs hidden t).isEmpty

/-- Lexicographic comparison of character lists by code point. -/
def charsLe : List Char → List Char → Bool
  | [], _ => true
  | _ :: _, [] => false
  | x :: xs, y :: ys =>
    if x.toNat < y.toNat then true
    else if x.toNat = y.toNat then charsLe xs ys
    else false

/-- Case-sensitive lexical order on names (spec §4.3). -/
def nameLe (a b : String) : Bool := charsLe a.toList b.toList

/-- Insert a node into a name-sorted list of nodes. -/
def insertByName (x : DirTree) : List DirTree → List DirTree
  | [] => [x]
  | y :: ys => if nameLe x.name y.name then x :: y :: ys else y :: insertByName x ys

/-- Modelled from the spec: children are visited in ascending name
order for deterministic output (§4.3). -/
def sortByName : List DirTree → List DirTree
  | [] => []
  | x :: xs => insertByName x (sortByName xs)

/-- Modelled from the spec: depth-bounded pre-order traversal (§4.3).
Each visited directory is recorded (with its `hasChildren` flag)
before its unhidden children are visited in name order; at depth 0
children are not expanded, but `hasChildren` is still computed. -/
def listTreeFrom (hidden : String → Bool) : Nat → List String → DirTree → List DirNode
  | 0, pre, t => [⟨pre ++ [t.name], hasVisibleChild hidden t⟩]
  | d + 1, pre, t =>
    ⟨pre ++ [t.name], hasVisibleChild hidden t⟩ ::
      (sortByName (visibleSubdirs hidden t)).flatMap
        (listTreeFrom hidden d (pre ++ [t.name]))

/-- Modelled from the spec: the tree listing entry point, clamping the
caller-supplied depth before traversing (§4.3). -/
def listTree (hidden : String → Bool) (d : Int) (pre : List String) (t : DirTree) : List DirNode :=
  listTreeFrom hidden (clampDepth d) pre t


/-- C1: the claim that every request accepted by the handlers resolves
to a location equal to or strictly nested under the base directory is
false: under base `/tmp/root`, the request path `../rootevil` resolves
to `/tmp/rootevil` — outside the root — yet the `startsWith` check
accepts it (the prefix test lacks a trailing separator), and both
handlers go on to touch that outside location. -/
theorem read_save_escape_root_c1 :
    resolveSafePath cwd0 "/tmp/root" "../rootevil" = ("/tmp/root", "/tmp/rootevil")
    ∧ strStartsWith "/tmp/rootevil" "/tmp/root" = true
    ∧ insideRoot "/tmp/root" "/tmp/rootevil" = false
    ∧ readHandlerAction cwd0 "/tmp/root" (some "../rootevil") = ReadAction.readFile "/tmp/rootevil"
    ∧ saveHandlerAction cwd0 "/tmp/root" (some "../rootevil") (some "pwned")
        = SaveAction.writeFile "/tmp/rootevil" (some "pwned") := by decide

/-- C2 counterexample: in the spec's concrete scenario (root
`/tmp/root` containing `docs/readme.txt` = `"hello"`), the request
`GET /api/read?path=/../etc/passwd` does not get the claimed 403: the
sanitiser silently corrects the path to a location inside the root and
the handler answers 500 (read error). -/
theorem scenario_passwd_not_forbidden_c2 :
    (readResponse cwd0 "/tmp/root" scenarioFs (some "/../etc/passwd")).status = 500
    ∧ (readResponse cwd0 "/tmp/root" scenarioFs (some "/../etc/passwd")).status ≠ 403 := by decide

/-- C2 amended: `GET /api/read?path=/docs/readme.txt` returns 200 with
body `"hello"`; `GET /api/read?path=/../etc/passwd` is accepted — the
normalise-then-strip sanitisation maps it to `/tmp/root/etc/passwd`
inside the root — and returns 500 since that file does not exist. -/
theorem scenario_read_responses_c2 :
    readResponse cwd0 "/tmp/root" scenarioFs (some "/docs/readme.txt") = ⟨200, "hello"⟩
    ∧ (resolveSafePath cwd0 "/tmp/root" "/../etc/passwd").2 = "/tmp/root/etc/passwd"
    ∧ readResponse cwd0 "/tmp/root" scenarioFs (some "/../etc/passwd")
        = ⟨500, "Error reading file"⟩ := by decide

/-- C5: a `/api/read` request without a string `path` query parameter,
and a `/api/save` request whose body lacks a string `path` field, are
answered 400, with no path resolution or filesystem operation
attempted (the decision is `badRequest` outright and the filesystem
snapshot is untouched). -/
theorem missing_path_bad_request_c5 (cwd filesDir : String) (fsys : Fs) (c : Option String) :
    readHandlerAction cwd filesDir none = ReadAction.badRequest
    ∧ readResponse cwd filesDir fsys none = ⟨400, "Bad Request: Missing path parameter"⟩
    ∧ saveHandlerAction cwd filesDir none c = SaveAction.badRequest
    ∧ (saveResponse cwd filesDir fsys none c).1 = ⟨400, "Bad Request: Missing path parameter"⟩
    ∧ (saveResponse cwd filesDir fsys none c).2 = fsys :=
  ⟨rfl, rfl, rfl, rfl, rfl⟩

/-- C7: for any relative path accepted by the sanitiser check and any
content string, saving that content and then reading the same
relative path returns exactly the written content. -/
theorem write_read_roundtrip_c7 (cwd filesDir relPath content : String) (fsys : Fs)
    (h : strStartsWith (resolveSafePath cwd filesDir relPath).2
          (resolveSafePath cwd filesDir relPath).1 = true) :
    (saveResponse cwd filesDir fsys (some relPath) (some content)).1
      = ⟨200, "File saved successfully"⟩
    ∧ readResponse cwd filesDir
        (saveResponse cwd filesDir fsys (some relPath) (some content)).2 (some relPath)
      = ⟨200, content⟩ := by
  have hs : saveHandlerAction cwd filesDir (some relPath) (some content)
      = SaveAction.writeFile (resolveSafePath cwd filesDir relPath).2 (some content) := by
    unfold saveHandlerAction
    simp [h]
  have hr : readHandlerAction cwd filesDir (some relPath)
      = ReadAction.readFile (resolveSafePath cwd filesDir relPath).2 := by
    unfold readHandlerAction
    simp [h]
  constructor
  · simp [saveResponse, hs, fsWriteFile]
  · simp [readResponse, hr, saveResponse, hs, fsWriteFile]

/-- C7 witness: the round trip at root `/tmp/root`, path
`docs/notes.txt`, content `"a/b"` (which contains the separator). -/
theorem write_read_roundtrip_c7_witness :
    readResponse cwd0 "/tmp/root"
      (saveResponse cwd0 "/tmp/root" scenarioFs (some "docs/notes.txt") (some "a/b")).2
      (some "docs/notes.txt") = ⟨200, "a/b"⟩ :=
  (write_read_roundtrip_c7 cwd0 "/tmp/root" "docs/notes.txt" "a/b" scenarioFs (by decide)).2

/-- C9: a request whose resolved path fails the base check is answered
403 with no filesystem operation (the decision is `forbidden`, and the
filesystem snapshot after a rejected save is unchanged). -/
theorem forbidden_untouched_fs_c9 (cwd filesDir p : String) (fsys : Fs) (c : Option String)
    (h : strStartsWith (resolveSafePath cwd filesDir p).2
          (resolveSafePath cwd filesDir p).1 = false) :
    readHandlerAction cwd filesDir (some p) = ReadAction.forbidden
    ∧ readResponse cwd filesDir fsys (some p) = ⟨403, "Forbidden: Access Denied"⟩
    ∧ saveHandlerAction cwd filesDir (some p) c = SaveAction.forbidden
    ∧ (saveResponse cwd filesDir fsys (some p) c).1 = ⟨403, "Forbidden: Access Denied"⟩
    ∧ (saveResponse cwd filesDir fsys (some p) c).2 = fsys := by
  have hr : readHandlerAction cwd filesDir (some p) = ReadAction.forbidden := by
    unfold readHandlerAction
    simp [h]
  have hs : saveHandlerAction cwd filesDir (some p) c = SaveAction.forbidden := by
    unfold saveHandlerAction
    simp [h]
  refine ⟨hr, ?_, hs, ?_, ?_⟩ <;> simp [readResponse, saveResponse, hr, hs]

/-- C9 witness: `../../x` resolves to `/x`, fails the check, and the
rejected read and save leave the scenario filesystem unchanged. -/
theorem forbidden_untouched_fs_c9_witness :
    readResponse cwd0 "/tmp/root" scenarioFs (some "../../x") = ⟨403, "Forbidden: Access Denied"⟩
    ∧ (saveResponse cwd0 "/tmp/root" scenarioFs (some "../../x") (some "z")).2 = scenarioFs :=
  ⟨(forbidden_untouched_fs_c9 cwd0 "/tmp/root" "../../x" scenarioFs (some "z") (by decide)).2.1,
   (forbidden_untouched_fs_c9 cwd0 "/tmp/root" "../../x" scenarioFs (some "z") (by decide)).2.2.2.2⟩

/-- C10: `/api/save` validates only the `path` field: a body with a
string path that passes the base check but no `content` field is not
answered 400; the handler's decision is to call `fs.writeFile` with
the absent (`undefined`) content passed through, and the file map is
left unchanged by the failing write. -/
theorem save_content_unchecked_c10 (cwd filesDir p : String) (fsys : Fs)
    (h : strStartsWith (resolveSafePath cwd filesDir p).2
          (resolveSafePath cwd filesDir p).1 = true) :
    saveHandlerAction cwd filesDir (some p) none
      = SaveAction.writeFile (resolveSafePath cwd filesDir p).2 none
    ∧ (saveResponse cwd filesDir fsys (some p) none).1.status ≠ 400
    ∧ (saveResponse cwd filesDir fsys (some p) none).2 = fsys := by
  have hs : saveHandlerAction cwd filesDir (some p) none
      = SaveAction.writeFile (resolveSafePath cwd filesDir p).2 none := by
    unfold saveHandlerAction
    simp [h]
  refine ⟨hs, ?_, ?_⟩ <;> simp [saveResponse, hs, fsWriteFile]

/-- C10 witness: saving `notes.txt` with no content field is not a
400; the handler passes the absent content straight to the write. -/
theorem save_content_unchecked_c10_witness :
    saveHandlerAction cwd0 "/tmp/root" (some "notes.txt") none
      = SaveAction.writeFile "/tmp/root/notes.txt" none
    ∧ (saveResponse cwd0 "/tmp/root" scenarioFs (some "notes.txt") none).1.status ≠ 400 := by
  have h := save_content_unchecked_c10 cwd0 "/tmp/root" "notes.txt" scenarioFs (by decide)
  exact ⟨by rw [h.1]; decide, h.2.1⟩

/-- C3 counterexample: a candidate whose enumeration succeeds but has
one child directory raising a permission error is not accepted as
usable — `ensureDirectoryUsable` returns `{ok: false, reason:
'subdir'}`, disqualifying the candidate, contrary to the claim that
the child error is skipped and the candidate still accepted. -/
theorem subdir_perm_error_rejects_candidate_c3 :
    probeC3.readdir = Except.ok [⟨"locked", true, some ErrCode.EACCES⟩]
    ∧ entryBlocked ⟨"locked", true, some ErrCode.EACCES⟩ = true
    ∧ ensureDirectoryUsable probeC3 = ⟨false, some "subdir"⟩ :=
  ⟨rfl, rfl, rfl⟩

/-- C3 amended: for a creatable, readable/writable candidate, a
permission error on any individual child directory disqualifies the
candidate (reason `subdir`); a permission failure of the enumeration
itself also disqualifies it (reason `inspect`), while a
non-permission enumeration failure is swallowed and the candidate
accepted. -/
theorem usable_probe_outcomes_c3 (p : DirProbe)
    (hm : p.mkdirErr = none) (ha : p.accessErr = none) :
    (∀ es, p.readdir = Except.ok es →
        ((ensureDirectoryUsable p).ok = false ↔ ∃ e ∈ es, entryBlocked e = true))
    ∧ (∀ c, p.readdir = Except.error c →
        ((ensureDirectoryUsable p).ok = false ↔ isPermErr c = true)) := by
  constructor
  · intro es hes
    unfold ensureDirectoryUsable
    simp [hm, ha, hes]
    cases hf : es.find? entryBlocked with
    | none =>
      simp
      intro e he
      have := List.find?_eq_none.mp hf e he
      simpa using this
    | some e =>
      simp
      exact ⟨e, List.mem_of_find?_eq_some hf, List.find?_some hf⟩
  · intro c hc
    unfold ensureDirectoryUsable
    simp [hm, ha, hc]
    cases hpc : isPermErr c <;> simp

/-- C3 amended witness: the iff at the concrete probe `probeC3`. -/
theorem usable_probe_outcomes_c3_witness :
    (ensureDirectoryUsable probeC3).ok = false
      ↔ ∃ e ∈ [FsEntry.mk "locked" true (some ErrCode.EACCES)], entryBlocked e = true :=
  (usable_probe_outcomes_c3 probeC3 rfl rfl).1 [⟨"locked", true, some ErrCode.EACCES⟩] rfl

/-- C4 counterexample: the candidate list built by
`resolveFilesDirectory` contains no privilege-appropriate default.
With no override set, a non-superuser process and a usable home
directory, the claimed candidate list is `[home, bundled]` and the
claimed algorithm would choose the home directory; the code's
candidate list is just `[bundled]`, and with the bundled directory
unusable root resolution fails outright instead. -/
theorem no_privilege_candidate_c4 :
    claimedCandidateDirs none false homeC4 = [homeC4, defaultFilesDir]
    ∧ (candidateDirs cwd0 none).map Prod.fst = [defaultFilesDir]
    ∧ (ensureDirectoryUsable (fsysC4 homeC4)).ok = true
    ∧ resolveFilesDirectory cwd0 none fsysC4 = Except.error flmngrFatalMsg :=
  ⟨rfl, rfl, rfl, rfl⟩

/-- C4 amended: root selection probes the explicit `FLMNGR_ROOT_DIR`
override first and the bundled files directory second — there is no
privilege-based candidate — and whenever the override resolves to a
usable directory it is chosen, process privilege playing no role. -/
theorem override_wins_c4 (cwd p : String) (fsys : String → DirProbe)
    (hp : p ≠ "")
    (hu : (ensureDirectoryUsable (fsys (nodeResolve cwd [p]))).ok = true) :
    resolveFilesDirectory cwd (some p) fsys = Except.ok (nodeResolve cwd [p]) := by
  unfold resolveFilesDirectory candidateDirs
  simp [hp, resolveFilesDirLoop, hu]

/-- C4 amended witness: with every directory usable, the override
`/data` is chosen. -/
theorem override_wins_c4_witness :
    resolveFilesDirectory cwd0 (some "/data") (fun _ => usableProbe) = Except.ok "/data" :=
  (override_wins_c4 cwd0 "/data" (fun _ => usableProbe) (by decide) rfl).trans rfl

/-- Case analysis of the candidate loop of `resolveFilesDirectory`:
it answers the first candidate whose probe is ok, and throws the
fatal message when no candidate's probe is ok. -/
theorem resolveLoop_cases (fsys : String → DirProbe) (cs : List (String × String)) :
    (∃ c, cs.find? (fun c => (ensureDirectoryUsable (fsys c.1)).ok) = some c
          ∧ resolveFilesDirLoop fsys cs = Except.ok c.1)
    ∨ ((∀ c ∈ cs, (ensureDirectoryUsable (fsys c.1)).ok = false)
       ∧ resolveFilesDirLoop fsys cs = Except.error flmngrFatalMsg) := by
  induction cs with
  | nil =>
    right
    refine ⟨?_, rfl⟩
    intro c hc
    cases hc
  | cons c rest ih =>
    cases hok : (ensureDirectoryUsable (fsys c.1)).ok with
    | true =>
      left
      exact ⟨c, by simp [List.find?, hok], by simp [resolveFilesDirLoop, hok]⟩
    | false =>
      rcases ih with ⟨d, hf, hr⟩ | ⟨hall, hr⟩
      · left
        exact ⟨d, by simp [List.find?, hok, hf], by simp [resolveFilesDirLoop, hok, hr]⟩
      · right
        refine ⟨?_, by simp [resolveFilesDirLoop, hok, hr]⟩
        intro x hx
        rcases List.mem_cons.mp hx with h | h
        · rw [h]; exact hok
        · exact hall x h

/-- C6: root resolution returns the first candidate in priority order
whose probe finds it usable; when no candidate is usable it throws the
descriptive message telling the operator to set `FLMNGR_ROOT_DIR`, the
startup block re-throws, and the process never reaches serving. -/
theorem first_usable_or_fatal_c6 (cwd : String) (env : Option String) (fsys : String → DirProbe) :
    (∃ c, (candidateDirs cwd env).find? (fun c => (ensureDirectoryUsable (fsys c.1)).ok) = some c
          ∧ resolveFilesDirectory cwd env fsys = Except.ok c.1
          ∧ startup cwd env fsys = Startup.serving c.1)
    ∨ ((∀ c ∈ candidateDirs cwd env, (ensureDirectoryUsable (fsys c.1)).ok = false)
       ∧ resolveFilesDirectory cwd env fsys = Except.error flmngrFatalMsg
       ∧ startup cwd env fsys = Startup.failed flmngrFatalMsg) := by
  have hd : resolveFilesDirectory cwd env fsys
      = resolveFilesDirLoop fsys (candidateDirs cwd env) := rfl
  rcases resolveLoop_cases fsys (candidateDirs cwd env) with ⟨c, hf, hr⟩ | ⟨hall, hr⟩
  · left
    refine ⟨c, hf, hd.trans hr, ?_⟩
    unfold startup
    rw [hd.trans hr]
  · right
    refine ⟨hall, hd.trans hr, ?_⟩
    unfold startup
    rw [hd.trans hr]

/-- Every node produced by a traversal bounded by `n` lies at most
`n` levels below the starting directory: its display path extends the
starting path by at most `n + 1` components. -/
theorem listTreeFrom_path_length (hidden : String → Bool) :
    ∀ (n : Nat) (pre : List String) (t : DirTree),
      ∀ nd ∈ listTreeFrom hidden n pre t, nd.path.length ≤ pre.length + 1 + n := by
  intro n
  induction n with
  | zero =>
    intro pre t nd h
    simp [listTreeFrom] at h
    subst h
    simp
  | succ k ih =>
    intro pre t nd h
    simp [listTreeFrom] at h
    rcases h with h | h
    · subst h
      simp
    · obtain ⟨c, hc, hnd⟩ := h
      have hb := ih (pre ++ [t.name]) c nd hnd
      simp at hb
      omega

/-- C8: the caller-supplied depth is clamped to the ceiling 20 and
floored at 0; no listed node lies deeper than the clamped bound below
the start; with clamped depth 0 the result is exactly one node — the
starting directory — whose `hasChildren` flag is true exactly when an
unhidden child directory exists. -/
theorem depth_clamp_listing_c8 (d : Int) (hidden : String → Bool) (pre : List String) (t : DirTree) :
    clampDepth d ≤ 20
    ∧ (d ≤ 0 → clampDepth d = 0)
    ∧ (∀ nd ∈ listTree hidden d pre t, nd.path.length ≤ pre.length + 1 + clampDepth d)
    ∧ listTreeFrom hidden 0 pre t = [⟨pre ++ [t.name], hasVisibleChild hidden t⟩]
    ∧ (hasVisibleChild hidden t = true ↔ ∃ c ∈ t.subdirs, hidden c.name = false) := by
  refine ⟨?_, ?_, ?_, rfl, ?_⟩
  · unfold clampDepth
    omega
  · intro hd
    unfold clampDepth
    omega
  · exact listTreeFrom_path_length hidden (clampDepth d) pre t
  · unfold hasVisibleChild visibleSubdirs
    simp [List.isEmpty_iff, List.filter_eq_nil_iff]

/-- C8 witness: a negative requested depth clamps to 0, and the
resulting listing of a root with one unhidden child is the single
starting node with `hasChildren = true`, within the depth bound. -/
theorem depth_clamp_listing_c8_witness :
    clampDepth (-7) = 0
    ∧ (DirNode.mk ["root"] true).path.length ≤ 0 + 1 + clampDepth (-7)
    ∧ listTreeFrom (fun _ => false) 0 [] (DirTree.node "root" [DirTree.node "sub" []])
        = [⟨["root"], true⟩] := by
  have h := depth_clamp_listing_c8 (-7) (fun _ => false) [] (DirTree.node "root" [DirTree.node "sub" []])
  refine ⟨h.2.1 (by decide), ?_, h.2.2.2.1⟩
  have hm : DirNode.mk ["root"] true
      ∈ listTree (fun _ => false) (-7) [] (DirTree.node "root" [DirTree.node "sub" []]) := by
    decide
  exact h.2.2.1 _ hm


end MiniOS
